import Mathlib

set_option linter.unnecessarySeqFocus false

/-!
Verification of the fastapi-qengine filter pipeline against its code.

The development shallowly embeds the parts of the repository that the
claims touch:

* `core/validator.py` (`FilterValidator`) — embedded in full for the
  `validate_filter_input` path: Python values become `PyValue`, raised
  exceptions become `Except VError`, and Python truthiness / `isinstance`
  quirks (e.g. `bool` being a subclass of `int`) are modelled explicitly.
* `core/registry.py` (`CompilerRegistry`) — state-passing embedding.
* `backends/beanie/adapter.py` and `backends/beanie/compiler.py`.
* `core/optimizer.py` and the enums/config of `core/types.py` are not in
  the source tree; those definitions are modelled from the spec and are
  marked as such in their doc comments.

Python string manipulation is modelled on `List Char` so that every
definition evaluates inside the kernel.
-/

/-- Python-ish value universe for the loosely-typed data flowing through the
pipeline (JSON scalars, arrays and objects). Python `dict`s are modelled as
insertion-ordered association lists with distinct keys; `float` values do
not occur in any claim and are omitted from the universe. `PyValue.bool` is
kept distinct from `PyValue.int` so that Python's `bool <: int` subtyping
can be modelled explicitly where the code relies on it. -/
inductive PyValue where
  | int (n : Int)
  | bool (b : Bool)
  | str (s : String)
  | list (xs : List PyValue)
  | dict (xs : List (String × PyValue))
  | none

/-- Python `key.startswith("$")`: the key begins with a dollar character. -/
def startsWithDollar (s : String) : Bool :=
  match s.data with
  | '$' :: _ => true
  | _ => false

/-- Helper for `splitComma`, accumulating the current chunk in reverse. -/
def splitCommaAux (cur : List Char) : List Char → List (List Char)
  | [] => [cur.reverse]
  | c :: rest =>
    if c = ',' then cur.reverse :: splitCommaAux [] rest
    else splitCommaAux (c :: cur) rest

/-- Python `s.split(",")`. -/
def splitComma (s : String) : List String :=
  (splitCommaAux [] s.data).map String.mk

/-- Python `s.strip()` restricted to space characters, which is all the
order-clause grammar produces. -/
def pyStrip (s : String) : String :=
  String.mk (((s.data.dropWhile (· = ' ')).reverse.dropWhile (· = ' ')).reverse)

/-- Python `s.lstrip("-")`. -/
def lstripMinus (s : String) : String :=
  String.mk (s.data.dropWhile (· = '-'))

mutual

/-- Python `repr` of a `PyValue` (used for `str` of containers as well). -/
def pyRepr : PyValue → String
  | .int n => n.repr
  | .bool b => if b then "True" else "False"
  | .str s => "\x27" ++ s ++ "\x27"
  | .list xs => "[" ++ String.intercalate ", " (pyReprElems xs) ++ "]"
  | .dict es => "\x7b" ++ String.intercalate ", " (pyReprEntries es) ++ "\x7d"
  | .none => "None"
termination_by v => (sizeOf v, 0)

/-- Reprs of the elements of a Python list. -/
def pyReprElems : List PyValue → List String
  | [] => []
  | x :: rest => pyRepr x :: pyReprElems rest
termination_by l => (sizeOf l, 1)

/-- Reprs of the entries of a Python dict. -/
def pyReprEntries : List (String × PyValue) → List String
  | [] => []
  | (k, v) :: rest => ("\x27" ++ k ++ "\x27: " ++ pyRepr v) :: pyReprEntries rest
termination_by l => (sizeOf l, 1)

end

/-- Python `str` of a `PyValue`: like `repr` except that a string is
rendered without quotes. -/
def pyStr : PyValue → String
  | .str s => s
  | v => pyRepr v

/-- Python `isinstance(v, int)`: true for `int` and also for `bool`, since
`bool` is a subclass of `int` in Python. -/
def isInstInt : PyValue → Bool
  | .int _ => true
  | .bool _ => true
  | _ => false

/-- Numeric value of a `PyValue` under Python's `int` view (`True` is `1`,
`False` is `0`); only meaningful when `isInstInt` holds. -/
def intValue : PyValue → Int
  | .int n => n
  | .bool b => if b then 1 else 0
  | _ => 0

/-- Python `v == n` for an `int` literal `n`: numeric equality, with
booleans comparing as `1`/`0`; every non-numeric value compares unequal. -/
def pyEqInt (v : PyValue) (n : Int) : Bool :=
  match v with
  | .int m => m = n
  | .bool b => (if b then (1 : Int) else 0) = n
  | _ => false

/-- Modelled from the spec: the closed `ComparisonOperator` enumeration of
`core/types.py` (not under `src/`), with the canonical dollar-prefixed
values listed in spec section 3. -/
inductive ComparisonOperator where
  | EQ | NE | GT | GTE | LT | LTE | IN | NIN | REGEX | EXISTS | SIZE | TYPE
deriving DecidableEq

/-- Canonical string value of a comparison operator. -/
def ComparisonOperator.value : ComparisonOperator → String
  | .EQ => "$eq"
  | .NE => "$ne"
  | .GT => "$gt"
  | .GTE => "$gte"
  | .LT => "$lt"
  | .LTE => "$lte"
  | .IN => "$in"
  | .NIN => "$nin"
  | .REGEX => "$regex"
  | .EXISTS => "$exists"
  | .SIZE => "$size"
  | .TYPE => "$type"

/-- Modelled from the spec: the `LogicalOperator` enumeration of
`core/types.py` (not under `src/`). -/
inductive LogicalOperator where
  | AND | OR | NOR
deriving DecidableEq

/-- Canonical string value of a logical operator. -/
def LogicalOperator.value : LogicalOperator → String
  | .AND => "$and"
  | .OR => "$or"
  | .NOR => "$nor"

/-- Modelled from the spec: the `SecurityPolicy` configuration record of
`core/types.py` (not under `src/`), spec section 3. The integer limits are
Python `int`s, hence `Int`. Default limit values follow the spec's
indicative defaults; no claim depends on them. -/
structure SecurityPolicy where
  allowed_fields : Option (List String) := Option.none
  blocked_fields : Option (List String) := Option.none
  max_depth : Int := 10
  max_array_size : Int := 100
  allowed_operators : Option (List ComparisonOperator) := Option.none

/-- Errors raised by `FilterValidator`: `SecurityError` or
`ValidationError` from `core/errors.py`, each carrying its message. -/
inductive VError where
  | security (msg : String)
  | validation (msg : String)
deriving DecidableEq

instance : DecidableEq (Except VError Unit) := fun a b =>
  match a, b with
  | .ok (), .ok () => isTrue rfl
  | .error e1, .error e2 =>
    if h : e1 = e2 then isTrue (by rw [h]) else isFalse (by simp [h])
  | .ok _, .error _ => isFalse (by simp)
  | .error _, .ok _ => isFalse (by simp)

/-- The `FilterInput` container (`core/types.py`): three independently
optional loosely-typed sections. The validator re-checks their shapes
defensively, so each section is kept as a raw `PyValue` here. -/
structure FilterInput where
  whereSec : Option PyValue := Option.none
  order : Option PyValue := Option.none
  fields : Option PyValue := Option.none

/-- The `FilterValidator` (`core/validator.py`). `regexError?` is an
oracle standing in for CPython's `re.compile`: it returns `some errmsg`
when the pattern fails to compile, `Option.none` when it compiles. No
claim depends on a particular regex, so it is kept abstract. The unused
`ValidatorConfig` and the custom `validation_rules` (used only by
`validate_ast_node`, which no claim touches) are omitted. -/
structure FilterValidator where
  security_policy : SecurityPolicy
  regexError? : String → Option String := fun _ => Option.none

/-- Python truthiness of an `Optional[List[str]]`: `None` and the empty
list are falsy. -/
def truthyStrList : Option (List String) → Bool
  | Option.none => false
  | some l => !l.isEmpty

/-- `FilterValidator._get_operator_enum` (`validator.py:261`): resolve an
operator string to a `ComparisonOperator`, `Option.none` when the string
is not a canonical enum value. -/
def get_operator_enum (op : String) : Option ComparisonOperator :=
  match op with
  | "$eq" => some .EQ
  | "$ne" => some .NE
  | "$gt" => some .GT
  | "$gte" => some .GTE
  | "$lt" => some .LT
  | "$lte" => some .LTE
  | "$in" => some .IN
  | "$nin" => some .NIN
  | "$regex" => some .REGEX
  | "$exists" => some .EXISTS
  | "$size" => some .SIZE
  | "$type" => some .TYPE
  | _ => Option.none

/-- The `allowed_operators` stanza of `FilterValidator._validate_operator`
(`validator.py:107-111`): when a whitelist is set (`is not None` — an
empty whitelist still applies), an operator resolvable to the enum must be
in it; unresolvable operator strings fall through. -/
def validate_operator_allowed (p : SecurityPolicy) (operator : String) :
    Except VError Unit :=
  match p.allowed_operators with
  | Option.none => .ok ()
  | some allowed =>
    match get_operator_enum operator with
    | Option.none => .ok ()
    | some e =>
      if allowed.contains e then .ok ()
      else .error (.security ("Operator \x27" ++ operator ++ "\x27 is not allowed"))

/-- `FilterValidator._validate_field_access` (`validator.py:167-179`):
blocked-fields check first, then the allowed-fields whitelist, then the
non-empty-name check. Both field-list checks use Python truthiness on the
optional list. Keys of a Python dict are always strings, so the
`isinstance(field_name, str)` half of the last check is vacuous here. -/
def validate_field_access (p : SecurityPolicy) (field_name : String) :
    Except VError Unit :=
  if truthyStrList p.blocked_fields && (p.blocked_fields.getD []).contains field_name then
    .error (.security ("Access to field \x27" ++ field_name ++ "\x27 is blocked"))
  else if truthyStrList p.allowed_fields && !(p.allowed_fields.getD []).contains field_name then
    .error (.security ("Access to field \x27" ++ field_name ++ "\x27 is not allowed"))
  else if field_name = "" then
    .error (.validation "Field names must be non-empty strings")
  else
    .ok ()

/-- `FilterValidator._validate_array_operator` (`validator.py:138-144`). -/
def validate_array_operator (p : SecurityPolicy) (operator : String)
    (value : PyValue) : Except VError Unit :=
  match value with
  | .list xs =>
    if (xs.length : Int) > p.max_array_size then
      .error (.security ("Array size exceeds maximum of " ++ p.max_array_size.repr))
    else .ok ()
  | _ => .error (.validation ("Operator \x27" ++ operator ++ "\x27 requires an array value"))

/-- `FilterValidator._validate_regex_operator` (`validator.py:146-155`),
with `re.compile` replaced by the validator's oracle. -/
def validate_regex_operator (v : FilterValidator) (operator : String)
    (value : PyValue) : Except VError Unit :=
  match value with
  | .str s =>
    match v.regexError? s with
    | Option.none => .ok ()
    | some e => .error (.validation ("Invalid regex pattern: " ++ e))
  | _ => .error (.validation ("Operator \x27" ++ operator ++ "\x27 requires a string value"))

/-- `FilterValidator._validate_exists_operator` (`validator.py:157-160`). -/
def validate_exists_operator (operator : String) (value : PyValue) :
    Except VError Unit :=
  match value with
  | .bool _ => .ok ()
  | _ => .error (.validation ("Operator \x27" ++ operator ++ "\x27 requires a boolean value"))

/-- `FilterValidator._validate_size_operator` (`validator.py:162-165`):
`isinstance(value, int) and value >= 0` — satisfied by Python booleans,
since `bool` is a subclass of `int`. -/
def validate_size_operator (operator : String) (value : PyValue) :
    Except VError Unit :=
  if isInstInt value && intValue value ≥ 0 then .ok ()
  else .error (.validation ("Operator \x27" ++ operator ++ "\x27 requires a non-negative integer"))

mutual

/-- `FilterValidator._validate_where_clause` (`validator.py:87-103`):
depth limit first, then the object-shape check, then each key/value
entry in order; the first raised error propagates. -/
def validate_where_clause (v : FilterValidator) : PyValue → Nat → Except VError Unit
  | w, depth =>
    if (depth : Int) > v.security_policy.max_depth then
      .error (.security ("Query depth exceeds maximum of " ++ v.security_policy.max_depth.repr))
    else match w with
      | .dict entries => validate_where_entries v entries depth
      | _ => .error (.validation "Where clause must be an object")
termination_by w _ => (sizeOf w, 0)

/-- The `for key, value in where.items()` loop of
`_validate_where_clause`: entries in order, stopping at the first error. -/
def validate_where_entries (v : FilterValidator) :
    List (String × PyValue) → Nat → Except VError Unit
  | [], _ => .ok ()
  | e :: rest, depth => do
    validate_where_entry v e depth
    validate_where_entries v rest depth
termination_by l _ => (sizeOf l, 0)

/-- One iteration of the `_validate_where_clause` loop: a dollar-prefixed
key dispatches to `_validate_operator`, any other key is a field name. -/
def validate_where_entry (v : FilterValidator) :
    String × PyValue → Nat → Except VError Unit
  | (key, value), depth =>
    if startsWithDollar key then
      validate_operator v key value depth
    else do
      validate_field_access v.security_policy key
      validate_field_condition_value v key value depth
termination_by e _ => (sizeOf e, 0)

/-- `FilterValidator._validate_operator` (`validator.py:105-124`). -/
def validate_operator (v : FilterValidator) :
    String → PyValue → Nat → Except VError Unit
  | operator, value, depth => do
    validate_operator_allowed v.security_policy operator
    if ["$and", "$or", "$nor"].contains operator then
      validate_logical_operator v operator value depth
    else if ["$in", "$nin"].contains operator then
      validate_array_operator v.security_policy operator value
    else if operator = "$regex" then
      validate_regex_operator v operator value
    else if operator = "$exists" then
      validate_exists_operator operator value
    else if operator = "$size" then
      validate_size_operator operator value
    else
      .ok ()
termination_by _ value _ => (sizeOf value, 1)

/-- `FilterValidator._validate_logical_operator` (`validator.py:126-136`). -/
def validate_logical_operator (v : FilterValidator) :
    String → PyValue → Nat → Except VError Unit
  | operator, value, depth =>
    match value with
    | .list items =>
      if items.isEmpty then
        .error (.validation ("Operator \x27" ++ operator ++ "\x27 cannot have empty array"))
      else
        validate_logical_items v items depth
    | _ => .error (.validation ("Operator \x27" ++ operator ++ "\x27 requires an array value"))
termination_by _ value _ => (sizeOf value, 0)

/-- The recursion of `_validate_logical_operator` into each nested
condition, at `depth + 1`. -/
def validate_logical_items (v : FilterValidator) :
    List PyValue → Nat → Except VError Unit
  | [], _ => .ok ()
  | item :: rest, depth => do
    validate_where_clause v item (depth + 1)
    validate_logical_items v rest depth
termination_by l _ => (sizeOf l, 0)

/-- `FilterValidator._validate_field_condition_value`
(`validator.py:181-187`): a dict value is an operator mapping whose
entries are validated in order; simple values are allowed. -/
def validate_field_condition_value (v : FilterValidator) :
    String → PyValue → Nat → Except VError Unit
  | _, .dict opEntries, depth => validate_fcv_entries v opEntries depth
  | _, _, _ => .ok ()
termination_by _ value _ => (sizeOf value, 0)

/-- The `for op, op_value in value.items()` loop of
`_validate_field_condition_value` (note: same depth, not depth + 1). -/
def validate_fcv_entries (v : FilterValidator) :
    List (String × PyValue) → Nat → Except VError Unit
  | [], _ => .ok ()
  | (op, opValue) :: rest, depth => do
    validate_operator v op opValue depth
    validate_fcv_entries v rest depth
termination_by l _ => (sizeOf l, 0)

end

/-- The order-spec loop of `FilterValidator._validate_order_clause`
(`validator.py:195-202`): strip each comma-separated spec, skip blanks,
strip the leading minus and check field access. -/
def validate_order_specs (p : SecurityPolicy) : List String → Except VError Unit
  | [] => .ok ()
  | spec :: rest =>
    let spec := pyStrip spec
    if spec = "" then validate_order_specs p rest
    else do
      validate_field_access p (lstripMinus spec)
      validate_order_specs p rest

/-- `FilterValidator._validate_order_clause` (`validator.py:189-202`). -/
def validate_order_clause (v : FilterValidator) (order : PyValue) :
    Except VError Unit :=
  match order with
  | .str s => validate_order_specs v.security_policy (splitComma s)
  | _ => .error (.validation "Order clause must be a string")

/-- The entry loop of `FilterValidator._validate_fields_clause`
(`validator.py:209-212`): field access first, then the Python membership
test `include not in [0, 1]` (numeric equality, so booleans pass). -/
def validate_fields_entries (p : SecurityPolicy) :
    List (String × PyValue) → Except VError Unit
  | [] => .ok ()
  | (field_name, incl) :: rest => do
    validate_field_access p field_name
    if pyEqInt incl 0 || pyEqInt incl 1 then
      validate_fields_entries p rest
    else
      .error (.validation ("Field inclusion value must be 0 or 1, got " ++ pyStr incl))

/-- `FilterValidator._validate_fields_clause` (`validator.py:204-212`). -/
def validate_fields_clause (v : FilterValidator) (fields : PyValue) :
    Except VError Unit :=
  match fields with
  | .dict entries => validate_fields_entries v.security_policy entries
  | _ => .error (.validation "Fields clause must be an object")

/-- The per-clause results a single `validate_filter_input` call collects:
one `Except` outcome per present clause, in where/order/fields order
(`validator.py:33-58`). -/
def clauseResults (v : FilterValidator) (fi : FilterInput) :
    List (Except VError Unit) :=
  (match fi.whereSec with
   | Option.none => []
   | some w => [validate_where_clause v w 0]) ++
  (match fi.order with
   | Option.none => []
   | some o => [validate_order_clause v o]) ++
  (match fi.fields with
   | Option.none => []
   | some f => [validate_fields_clause v f])

/-- One `try/except` arm of `validate_filter_input`: append the message to
the security or validation accumulator according to the error class. -/
def collectClause (acc : List String × List String) :
    Except VError Unit → List String × List String
  | .ok _ => acc
  | .error (.security m) => (acc.1 ++ [m], acc.2)
  | .error (.validation m) => (acc.1, acc.2 ++ [m])

/-- `FilterValidator.validate_filter_input` (`validator.py:28-65`):
validate each present clause, partition the collected messages into
security and validation lists, and raise a single aggregated
`SecurityError` in preference to a `ValidationError`. -/
def validate_filter_input (v : FilterValidator) (fi : FilterInput) :
    Except VError Unit :=
  let acc := (clauseResults v fi).foldl collectClause ([], [])
  if acc.1 ≠ [] then
    .error (.security ("Security policy violation: " ++ String.intercalate "; " acc.1))
  else if acc.2 ≠ [] then
    .error (.validation ("Filter validation failed: " ++ String.intercalate "; " acc.2))
  else
    .ok ()

/-- `FieldCondition` and `LogicalCondition` AST nodes (`core/types.py`,
spec section 3): a leaf tests one field against one operator/value pair,
an interior node combines an ordered sequence of children. -/
inductive ASTNode where
  | field (field : String) (operator : ComparisonOperator) (value : PyValue)
  | logical (operator : LogicalOperator) (conditions : List ASTNode)

/-- `OrderNode` (`core/types.py`): one sort key. -/
structure OrderNode where
  field : String
  ascending : Bool
deriving DecidableEq

/-- `FieldsNode` (`core/types.py`): the projection mapping. -/
structure FieldsNode where
  fields : List (String × Int)
deriving DecidableEq

/-- `FilterAST` root (`core/types.py`, spec section 3). -/
structure FilterAST where
  whereSec : Option ASTNode := Option.none
  order : List OrderNode := []
  fields : Option FieldsNode := Option.none

/-- Modelled from the spec: `OptimizerConfig` of `core/config.py` (not
under `src/`), holding the optimizer toggles and pass limit named in spec
section 4.5 and exercised by `tests/core/test_optimizer.py`. -/
structure OptimizerConfig where
  enabled : Bool := true
  simplify_logical_operators : Bool := true
  remove_redundant_conditions : Bool := true
  combine_range_conditions : Bool := false
  max_optimization_passes : Nat := 3

mutual

/-- Modelled from the spec (section 4.5): the structural-equality key of
`ASTOptimizer._get_condition_key` — `"field:<name>:<op>:<value>"` for a
leaf, `"logical:<op>"` plus recursively keyed children for an interior
node, with the child keys sorted so that AND/OR/NOR comparison is
order-insensitive. -/
def conditionKey : ASTNode → String
  | .field f op v => "field:" ++ f ++ ":" ++ op.value ++ ":" ++ pyStr v
  | .logical op cs =>
    "logical:" ++ op.value ++ ":[" ++
      String.intercalate "," ((conditionKeys cs).mergeSort (· ≤ ·)) ++ "]"
termination_by n => (sizeOf n, 0)

/-- Keys of a list of sibling conditions. -/
def conditionKeys : List ASTNode → List String
  | [] => []
  | c :: rest => conditionKey c :: conditionKeys rest
termination_by l => (sizeOf l, 1)

end

/-- Modelled from the spec (section 4.5): deduplicate an already-flattened
child list, keeping the first occurrence of each structural key. -/
def dedupByKeys (seen : List String) : List ASTNode → List ASTNode
  | [] => []
  | c :: rest =>
    let k := conditionKey c
    if seen.contains k then dedupByKeys seen rest
    else c :: dedupByKeys (k :: seen) rest

/-- Modelled from the spec (section 4.5): associative flattening — splice
the children of any child that is a `LogicalCondition` with the same
operator as the parent directly into the parent's child list. Children
were already optimized bottom-up, so their own levels carry no remaining
same-operator nesting and one traversal suffices. -/
def spliceSameOp (op : LogicalOperator) : List ASTNode → List ASTNode
  | [] => []
  | .logical op2 cs :: rest =>
    if op2 = op then cs ++ spliceSameOp op rest
    else .logical op2 cs :: spliceSameOp op rest
  | c :: rest => c :: spliceSameOp op rest

/-- Modelled from the spec (section 4.5): the
`ASTOptimizer._combine_range_conditions` hook. When disabled it returns
the input list unchanged; when enabled it must not alter semantics when no
merge opportunity is found, and the spec leaves any actual merging
underspecified — so the model keeps the child list unchanged in both
cases. -/
def combineRangeConditions (_cfg : OptimizerConfig) (cs : List ASTNode) :
    List ASTNode := cs

mutual

/-- Modelled from the spec (section 4.5): `ASTOptimizer._optimize_node`.
A `FieldCondition` is returned unchanged; a `LogicalCondition` with zero
children is removed (`Option.none`); one with exactly one child optimizes
to that child directly; one with multiple children has its children
optimized bottom-up (dropping removed ones), then spliced, deduplicated
and passed through the range hook according to the toggles. -/
def optimizeNode (cfg : OptimizerConfig) : ASTNode → Option ASTNode
  | .field f op v => some (.field f op v)
  | .logical op conditions =>
    match conditions with
    | [] => Option.none
    | [c] => some c
    | cs =>
      let optimized := optimizeNodes cfg cs
      let spliced :=
        if cfg.simplify_logical_operators then spliceSameOp op optimized else optimized
      let deduped :=
        if cfg.remove_redundant_conditions then dedupByKeys [] spliced else spliced
      some (.logical op (combineRangeConditions cfg deduped))
termination_by n => (sizeOf n, 0)

/-- Bottom-up optimization of a child list, dropping children that
optimize away. -/
def optimizeNodes (cfg : OptimizerConfig) : List ASTNode → List ASTNode
  | [] => []
  | c :: rest =>
    match optimizeNode cfg c with
    | Option.none => optimizeNodes cfg rest
    | some c2 => c2 :: optimizeNodes cfg rest
termination_by l => (sizeOf l, 1)

end

/-- Modelled from the spec (section 4.5): the fixed-point loop — the node
rewrite is re-applied up to `max_optimization_passes` times. The source's
early exit on a pass that produces no structural change is omitted: the
rewrite is deterministic, so once a pass leaves the tree unchanged every
further pass also leaves it unchanged and the early exit cannot change the
final result. -/
def optimizeWherePasses (cfg : OptimizerConfig) :
    Nat → Option ASTNode → Option ASTNode
  | 0, w => w
  | n + 1, w => optimizeWherePasses cfg n (w.bind (optimizeNode cfg))

/-- Modelled from the spec (section 4.5): deduplicate order-by nodes,
keeping only the first `OrderNode` per distinct field name and preserving
the relative order of first occurrences. -/
def dedupOrder (seen : List String) : List OrderNode → List OrderNode
  | [] => []
  | o :: rest =>
    if seen.contains o.field then dedupOrder seen rest
    else o :: dedupOrder (o.field :: seen) rest

/-- Modelled from the spec (section 4.5): `ASTOptimizer.optimize`. When
disabled the same AST is returned unchanged; when enabled the where tree
is rewritten for up to `max_optimization_passes` passes, order-by fields
are deduplicated by first occurrence, and the fields node passes through
unchanged. -/
def ASTOptimizer.optimize (cfg : OptimizerConfig) (ast : FilterAST) : FilterAST :=
  if cfg.enabled then
    { whereSec := optimizeWherePasses cfg cfg.max_optimization_passes ast.whereSec,
      order := dedupOrder [] ast.order,
      fields := ast.fields }
  else ast

/-- The heterogeneous values of the mapping returned by
`BeanieQueryAdapter.build`: a Mongo filter document, a sort
specification, or a projection document. -/
inductive BuildComponent where
  | filter (q : List (String × PyValue))
  | sort (s : List (String × Int))
  | projection (p : List (String × Int))

/-- `BeanieQueryAdapter` state (`backends/beanie/adapter.py`): `query`
starts as the empty dict, `sort_spec` as the empty list, `projection` as
`None`. -/
structure BeanieQueryAdapter where
  query : List (String × PyValue) := []
  sort_spec : List (String × Int) := []
  projection : Option (List (String × Int)) := Option.none

/-- Replace the value stored under `key`, if present, using `f`. -/
def alistModify (key : String) (f : PyValue → PyValue) :
    List (String × PyValue) → List (String × PyValue)
  | [] => []
  | (k, v) :: rest =>
    if k = key then (k, f v) :: rest
    else (k, v) :: alistModify key f rest

/-- `BeanieQueryAdapter.add_where_condition` (`adapter.py:18-29`): the
first condition becomes the query; a second one merges under `"$and"`;
later ones append to the existing `"$and"` list. -/
def BeanieQueryAdapter.add_where_condition (a : BeanieQueryAdapter)
    (condition : List (String × PyValue)) : BeanieQueryAdapter :=
  if a.query.isEmpty then { a with query := condition }
  else if (a.query.lookup "$and").isSome then
    { a with
      query := alistModify "$and"
        (fun v => match v with
          | .list l => .list (l ++ [.dict condition])
          | other => other)
        a.query }
  else
    { a with query := [("$and", .list [.dict a.query, .dict condition])] }

/-- `BeanieQueryAdapter.add_sort` (`adapter.py:31-35`). -/
def BeanieQueryAdapter.add_sort (a : BeanieQueryAdapter) (field : String)
    (ascending : Bool) : BeanieQueryAdapter :=
  { a with sort_spec := a.sort_spec ++ [(field, if ascending then 1 else -1)] }

/-- `BeanieQueryAdapter.set_projection` (`adapter.py:37-40`). -/
def BeanieQueryAdapter.set_projection (a : BeanieQueryAdapter)
    (fields : List (String × Int)) : BeanieQueryAdapter :=
  { a with projection := some fields }

/-- `BeanieQueryAdapter.build` (`adapter.py:42-55`): each component is
added to the result mapping only when truthy — a non-empty query dict, a
non-empty sort list, and a projection that is neither `None` nor the
empty dict. -/
def BeanieQueryAdapter.build (a : BeanieQueryAdapter) :
    List (String × BuildComponent) :=
  (if !a.query.isEmpty then [("filter", BuildComponent.filter a.query)] else []) ++
  (if !a.sort_spec.isEmpty then [("sort", BuildComponent.sort a.sort_spec)] else []) ++
  (match a.projection with
   | some p => if !p.isEmpty then [("projection", BuildComponent.projection p)] else []
   | Option.none => [])

/-- The `apply_order` loop of `BeanieQueryCompiler`
(`backends/beanie/compiler.py:44-50`). -/
def beanieApplyOrder (a : BeanieQueryAdapter) : List OrderNode → BeanieQueryAdapter
  | [] => a
  | o :: rest => beanieApplyOrder (a.add_sort o.field o.ascending) rest

/-- `BeanieQueryCompiler.compile` (`backends/beanie/compiler.py:104-128`):
start from a fresh adapter, apply the where condition (when present), the
order nodes (when the list is non-empty) and the projection (when
present), then build. `compileCond` stands for
`BeanieQueryCompiler.compile_condition`, whose operator implementations
live in the operator registry outside `src/`; no claim depends on its
output, so it is a parameter. -/
def beanieCompile (compileCond : ASTNode → List (String × PyValue))
    (ast : FilterAST) : List (String × BuildComponent) :=
  let a : BeanieQueryAdapter := {}
  let a := match ast.whereSec with
    | some w => a.add_where_condition (compileCond w)
    | Option.none => a
  let a := if !ast.order.isEmpty then beanieApplyOrder a ast.order else a
  let a := match ast.fields with
    | some fn => a.set_projection fn.fields
    | Option.none => a
  a.build

/-- `CompilerRegistry` state (`core/registry.py:11-16`). Compiler classes
are abstract tokens (`Nat`); a cached instance is a pair of the class it
was instantiated from and a creation nonce, so that distinct
instantiations of the same class are distinguishable, as Python object
identity distinguishes them. `counter` is the embedding's nonce source. -/
structure CompilerRegistry where
  compilers : List (String × Nat) := []
  instances : List (String × (Nat × Nat)) := []
  counter : Nat := 0

/-- Python `d[k] = v` on an insertion-ordered dict: overwrite in place or
append. -/
def alistInsert {α : Type} (key : String) (v : α) :
    List (String × α) → List (String × α)
  | [] => [(key, v)]
  | (k, w) :: rest =>
    if k = key then (key, v) :: rest
    else (k, w) :: alistInsert key v rest

/-- Python `del d[k]` (applied when the key is present): afterwards the
mapping no longer associates anything with `k`. -/
def alistErase {α : Type} (key : String) :
    List (String × α) → List (String × α)
  | [] => []
  | (k, w) :: rest =>
    if k = key then alistErase key rest
    else (k, w) :: alistErase key rest

/-- `CompilerRegistry.register_compiler` (`registry.py:18-32`): store the
class under the backend name and clear any cached instance. The
`issubclass` guard is not modelled — every abstract class token stands for
a class implementing `QueryCompiler`. -/
def CompilerRegistry.register_compiler (r : CompilerRegistry)
    (backend_name : String) (compiler_class : Nat) : CompilerRegistry :=
  { r with
    compilers := alistInsert backend_name compiler_class r.compilers,
    instances := alistErase backend_name r.instances }

/-- `CompilerRegistry.get_compiler` (`registry.py:34-55`): raise
`RegistryError` for an unregistered backend; otherwise instantiate and
cache on first use and return the cached instance thereafter. The result
pairs the returned instance with the registry state after the call. -/
def CompilerRegistry.get_compiler (r : CompilerRegistry)
    (backend_name : String) : Except String ((Nat × Nat) × CompilerRegistry) :=
  match r.compilers.lookup backend_name with
  | Option.none =>
    .error ("No compiler registered for backend \x27" ++ backend_name ++ "\x27")
  | some compiler_class =>
    match r.instances.lookup backend_name with
    | some inst => .ok (inst, r)
    | Option.none =>
      let inst := (compiler_class, r.counter)
      .ok (inst,
        { r with
          instances := alistInsert backend_name inst r.instances,
          counter := r.counter + 1 })

/-- A `FilterValidator` with a default-constructed `SecurityPolicy()`. -/
def defaultValidator : FilterValidator := { security_policy := {} }

/-- C8: the `$size` value check accepts Python booleans — validating the
where clause `{"f": {"$size": True}}` raises no error, because
`isinstance(value, int) and value >= 0` is satisfied by `True` (`bool`
being a subclass of `int`), even though `True` is not a non-negative
integer in the intended sense. -/
theorem size_operator_accepts_python_booleans :
    validate_size_operator "$size" (.bool true) = .ok () ∧
    validate_filter_input defaultValidator
      { whereSec := some (.dict [("f", .dict [("$size", .bool true)])]) } = .ok () := by
  refine ⟨rfl, ?_⟩
  simp [validate_filter_input, clauseResults, defaultValidator,
    validate_where_clause, validate_where_entries, validate_where_entry,
    validate_operator, validate_operator_allowed, validate_field_access,
    validate_field_condition_value, validate_fcv_entries,
    validate_size_operator, collectClause] <;> decide

/-- A validator whose policy sets `max_depth = 1` and leaves everything
else at its default, as in the spec's depth-enforcement scenario. -/
def depthOneValidator : FilterValidator :=
  { security_policy := { max_depth := 1 } }

/-- C3: with `SecurityPolicy(max_depth=1)`, validating
`{"where": {"$and": [{"$or": [{"a": 1}]}]}}` (nesting depth 2) raises a
`SecurityError` whose message mentions the depth limit; moreover the depth
check runs before any other check at each recursion level — at a depth
beyond the limit, `_validate_where_clause` raises the depth error whatever
the clause value is — with depth starting at 0 and incremented once per
logical-operator element. -/
theorem depth_limit_enforced_before_other_checks :
    validate_filter_input depthOneValidator
      { whereSec := some (.dict [("$and",
          .list [.dict [("$or", .list [.dict [("a", .int 1)]])]])]) } =
      .error (.security "Security policy violation: Query depth exceeds maximum of 1") ∧
    (∀ w : PyValue, validate_where_clause depthOneValidator w 2 =
      .error (.security "Query depth exceeds maximum of 1")) := by
  constructor
  · simp [validate_filter_input, clauseResults, depthOneValidator,
      validate_where_clause, validate_where_entries, validate_where_entry,
      validate_operator, validate_operator_allowed, validate_logical_operator,
      validate_logical_items, validate_field_access,
      validate_field_condition_value, validate_fcv_entries,
      collectClause] <;> decide
  · intro w
    have h2 : ((2 : Nat) : Int) > depthOneValidator.security_policy.max_depth := by decide
    rw [validate_where_clause.eq_def]
    dsimp only
    rw [if_pos h2]
    decide

/-- The spec's security-precedence policy:
`SecurityPolicy(blocked_fields=["x"], allowed_fields=["x","y"])`. -/
def xBlockedValidator : FilterValidator :=
  { security_policy :=
      { blocked_fields := some ["x"], allowed_fields := some ["x", "y"] } }

/-- C1: for every `SecurityPolicy` in which a field name appears in both
`blocked_fields` and `allowed_fields`, the field-access check raises the
blocked-field `SecurityError` — the blocked check runs before (and
regardless of) the allowed check — and with the spec's example policy
(`blocked_fields=["x"]`, `allowed_fields=["x","y"]`) a where, order or
fields access to `x` makes `validate_filter_input` raise `SecurityError`. -/
theorem blocked_fields_take_precedence_over_allowed
    (p : SecurityPolicy) (f : String) (bf af : List String)
    (hb : p.blocked_fields = some bf) (ha : p.allowed_fields = some af)
    (hfb : f ∈ bf) (hfa : f ∈ af) :
    validate_field_access p f =
      .error (.security ("Access to field \x27" ++ f ++ "\x27 is blocked")) ∧
    validate_filter_input xBlockedValidator
      { whereSec := some (.dict [("x", .int 1)]) } =
      .error (.security "Security policy violation: Access to field \x27x\x27 is blocked") ∧
    validate_filter_input xBlockedValidator { order := some (.str "x") } =
      .error (.security "Security policy violation: Access to field \x27x\x27 is blocked") ∧
    validate_filter_input xBlockedValidator { fields := some (.dict [("x", .int 1)]) } =
      .error (.security "Security policy violation: Access to field \x27x\x27 is blocked") := by
  refine ⟨?_, ?_, ?_, ?_⟩
  · have hbne : bf.isEmpty = false := by
      cases bf with
      | nil => cases hfb
      | cons a l => rfl
    have hcont : bf.contains f = true := by
      simpa [List.contains] using List.elem_iff.mpr hfb
    unfold validate_field_access
    rw [hb]
    simp [truthyStrList, hbne, hcont, hfb]
  · simp [validate_filter_input, clauseResults, xBlockedValidator,
      validate_where_clause, validate_where_entries, validate_where_entry,
      validate_field_access, truthyStrList, validate_field_condition_value,
      collectClause] <;> decide
  · simp [validate_filter_input, clauseResults, xBlockedValidator,
      validate_order_clause, validate_order_specs, validate_field_access,
      truthyStrList, collectClause] <;> decide
  · simp [validate_filter_input, clauseResults, xBlockedValidator,
      validate_fields_clause, validate_fields_entries, validate_field_access,
      truthyStrList, collectClause] <;> decide

/-- Witness for `blocked_fields_take_precedence_over_allowed` at the
spec's own example: field `x`, `blocked_fields=["x"]`,
`allowed_fields=["x","y"]`. -/
theorem blocked_fields_take_precedence_over_allowed_witness :
    validate_field_access xBlockedValidator.security_policy "x" =
      .error (.security "Access to field \x27x\x27 is blocked") :=
  (blocked_fields_take_precedence_over_allowed
    xBlockedValidator.security_policy "x" ["x"] ["x", "y"]
    rfl rfl (by decide) (by decide)).1

/-- The security accumulator of `validate_filter_input`'s collection fold
only grows: whatever is already collected stays collected. -/
theorem collect_fold_fst_extends (l : List (Except VError Unit)) :
    ∀ acc : List String × List String,
      ∃ t, (l.foldl collectClause acc).1 = acc.1 ++ t := by
  induction l with
  | nil => exact fun acc => ⟨[], (List.append_nil _).symm⟩
  | cons r rest ih =>
    intro acc
    match r with
    | .ok () => simpa [collectClause] using ih acc
    | .error (.security m) =>
      obtain ⟨t, ht⟩ := ih (acc.1 ++ [m], acc.2)
      exact ⟨[m] ++ t, by simpa [collectClause, List.append_assoc] using ht⟩
    | .error (.validation m) => simpa [collectClause] using ih (acc.1, acc.2 ++ [m])

/-- If some clause produced a `SecurityError`, the folded security-message
list is non-empty. -/
theorem collect_fold_fst_ne_nil (l : List (Except VError Unit)) (m : String)
    (hm : (Except.error (VError.security m) : Except VError Unit) ∈ l) :
    ∀ acc : List String × List String, (l.foldl collectClause acc).1 ≠ [] := by
  induction l with
  | nil => cases hm
  | cons r rest ih =>
    intro acc
    rcases List.mem_cons.mp hm with h | h
    · subst h
      obtain ⟨t, ht⟩ := collect_fold_fst_extends rest (acc.1 ++ [m], acc.2)
      simp only [List.foldl_cons, collectClause, ht]
      intro hcontra
      exact absurd (List.append_eq_nil.mp ((List.append_assoc _ _ _).symm.trans hcontra)).2
        (by simp)
    · exact fun hcontra => ih h (collectClause acc r) hcontra

/-- C2: whenever a single `validate_filter_input` call encounters at least
one security violation and at least one plain validation violation among
its where/order/fields clauses, it raises `SecurityError`, never
`ValidationError` — validation errors are raised only when no security
error exists in that pass. -/
theorem security_errors_preferred_over_validation_errors
    (v : FilterValidator) (fi : FilterInput)
    (hs : ∃ m, (Except.error (VError.security m) : Except VError Unit) ∈ clauseResults v fi)
    (hv : ∃ m, (Except.error (VError.validation m) : Except VError Unit) ∈ clauseResults v fi) :
    ∃ msg, validate_filter_input v fi = .error (.security msg) := by
  obtain ⟨m, hm⟩ := hs
  have hne := collect_fold_fst_ne_nil (clauseResults v fi) m hm ([], [])
  unfold validate_filter_input
  rw [if_pos hne]
  exact ⟨_, rfl⟩

/-- A validator that blocks field `p` (used to exhibit mixed
security/validation violations). -/
def pValidator : FilterValidator :=
  { security_policy := { blocked_fields := some ["p"] } }

/-- Witness for `security_errors_preferred_over_validation_errors`: a
where clause touching blocked field `p` (security violation) together
with a fields clause whose inclusion value 2 is invalid (validation
violation). -/
theorem security_errors_preferred_over_validation_errors_witness :
    ∃ msg, validate_filter_input pValidator
      { whereSec := some (.dict [("p", .int 1)]),
        fields := some (.dict [("a", .int 2)]) } = .error (.security msg) := by
  have h : clauseResults pValidator
      { whereSec := some (.dict [("p", .int 1)]),
        fields := some (.dict [("a", .int 2)]) } =
      [.error (.security "Access to field \x27p\x27 is blocked"),
       .error (.validation "Field inclusion value must be 0 or 1, got 2")] := by
    simp [clauseResults, pValidator, validate_where_clause,
      validate_where_entries, validate_where_entry, validate_operator,
      validate_operator_allowed, get_operator_enum, startsWithDollar,
      validate_field_access, truthyStrList, validate_field_condition_value,
      validate_fields_clause, validate_fields_entries, pyEqInt, pyStr,
      pyRepr] <;> decide
  exact security_errors_preferred_over_validation_errors pValidator _
    ⟨_, by rw [h]; exact List.mem_cons_self _ _⟩
    ⟨_, by rw [h]; exact List.mem_cons_of_mem _ (List.mem_cons_self _ _)⟩

/-- A validator that blocks fields `p` and `q`. -/
def pqValidator : FilterValidator :=
  { security_policy := { blocked_fields := some ["p", "q"] } }

/-- C4 counterexample: the where clause `{"p": 1, "q": 2}` contains two
independent security violations of the same category, yet the raised
`SecurityError` carries only the first message — access to `q` is never
reported — refuting the claim that all violation messages of a category
within one clause are collected into the combined error. -/
theorem single_clause_first_violation_counterexample :
    validate_filter_input pqValidator
      { whereSec := some (.dict [("p", .int 1), ("q", .int 2)]) } =
      .error (.security "Security policy violation: Access to field \x27p\x27 is blocked") ∧
    validate_filter_input pqValidator
      { whereSec := some (.dict [("p", .int 1), ("q", .int 2)]) } ≠
      .error (.security
        ("Security policy violation: " ++
          "Access to field \x27p\x27 is blocked; Access to field \x27q\x27 is blocked")) := by
  have h : validate_filter_input pqValidator
      { whereSec := some (.dict [("p", .int 1), ("q", .int 2)]) } =
      .error (.security "Security policy violation: Access to field \x27p\x27 is blocked") := by
    simp [validate_filter_input, clauseResults, pqValidator, collectClause,
      validate_where_clause, validate_where_entries, validate_where_entry,
      validate_field_access, truthyStrList, validate_field_condition_value,
      startsWithDollar] <;> decide
  exact ⟨h, by rw [h]; decide⟩

/-- C4 amended: within a single clause the validator raises on the first
violation encountered — once the first entry of a where clause fails,
later entries are never examined and their messages are not collected —
while aggregation of messages happens only across the where/order/fields
clauses, one message per clause per category, as the cross-clause example
of blocked `p` in where and blocked `q` in order shows. -/
theorem validator_raises_on_first_violation_within_clause
    (v : FilterValidator) (e : String × PyValue) (rest : List (String × PyValue))
    (depth : Nat) (err : VError)
    (h : validate_where_entry v e depth = .error err) :
    validate_where_entries v (e :: rest) depth = .error err ∧
    validate_filter_input pqValidator
      { whereSec := some (.dict [("p", .int 1)]), order := some (.str "q") } =
      .error (.security
        ("Security policy violation: " ++
          "Access to field \x27p\x27 is blocked; Access to field \x27q\x27 is blocked")) := by
  constructor
  · rw [validate_where_entries, h]
    rfl
  · simp [validate_filter_input, clauseResults, pqValidator, collectClause,
      validate_where_clause, validate_where_entries, validate_where_entry,
      validate_field_access, truthyStrList, validate_field_condition_value,
      startsWithDollar, validate_order_clause, validate_order_specs,
      splitComma, splitCommaAux, pyStrip, lstripMinus] <;> decide

/-- Witness for `validator_raises_on_first_violation_within_clause`: the
first entry `("p", 1)` of the two-entry clause fails with the blocked
error, so the whole clause reports exactly that error. -/
theorem validator_raises_on_first_violation_within_clause_witness :
    validate_where_entries pqValidator [("p", .int 1), ("q", .int 2)] 0 =
      .error (.security "Access to field \x27p\x27 is blocked") := by
  have h : validate_where_entry pqValidator ("p", .int 1) 0 =
      .error (.security "Access to field \x27p\x27 is blocked") := by
    simp [validate_where_entry, pqValidator, validate_field_access,
      truthyStrList, startsWithDollar, validate_field_condition_value] <;> decide
  exact (validator_raises_on_first_violation_within_clause
    pqValidator ("p", .int 1) [("q", .int 2)] 0 _ h).1

/-- C5: when `allowed_operators` is set, the restriction is enforced only
for operator strings that resolve to a `ComparisonOperator` enum value —
for every unresolvable operator string (including each logical operator
`$and`/`$or`/`$nor` and any unrecognized string) the allowed-operators
check never raises, while a resolvable comparison operator outside the
allowed set raises `SecurityError`. -/
theorem allowed_operators_restrict_only_comparison_enum
    (p : SecurityPolicy) (allowed : List ComparisonOperator)
    (hset : p.allowed_operators = some allowed) :
    (∀ op : String, get_operator_enum op = Option.none →
      validate_operator_allowed p op = .ok ()) ∧
    get_operator_enum "$and" = Option.none ∧
    get_operator_enum "$or" = Option.none ∧
    get_operator_enum "$nor" = Option.none ∧
    (∀ (op : String) (e : ComparisonOperator),
      get_operator_enum op = some e → e ∉ allowed →
      validate_operator_allowed p op =
        .error (.security ("Operator \x27" ++ op ++ "\x27 is not allowed"))) := by
  refine ⟨?_, rfl, rfl, rfl, ?_⟩
  · intro op hop
    unfold validate_operator_allowed
    rw [hset, hop]
  · intro op e hop he
    have hcont : allowed.contains e = false := by
      rcases h : allowed.contains e with _ | _
      · rfl
      · exact absurd (by simpa [List.contains] using List.elem_iff.mp h) he
    unfold validate_operator_allowed
    rw [hset, hop]
    simp [hcont, he]

/-- Witness for `allowed_operators_restrict_only_comparison_enum` at
`allowed_operators = [EQ, NE]`: `$unknown` and the logical operators pass
the check while `$gt` (resolvable, not whitelisted) raises. -/
theorem allowed_operators_restrict_only_comparison_enum_witness :
    validate_operator_allowed
      { allowed_operators := some [ComparisonOperator.EQ, ComparisonOperator.NE] }
      "$unknown" = .ok () ∧
    validate_operator_allowed
      { allowed_operators := some [ComparisonOperator.EQ, ComparisonOperator.NE] }
      "$gt" = .error (.security "Operator \x27$gt\x27 is not allowed") := by
  have h := allowed_operators_restrict_only_comparison_enum
    { allowed_operators := some [ComparisonOperator.EQ, ComparisonOperator.NE] }
    [ComparisonOperator.EQ, ComparisonOperator.NE] rfl
  exact ⟨h.1 "$unknown" rfl, h.2.2.2.2 "$gt" ComparisonOperator.GT rfl (by decide)⟩

/-- C6 counterexample: the fields-clause entry `{"a": True}` has an
inclusion value that is not exactly the integer 0 or 1, yet
`validate_filter_input` accepts it — Python's `include not in [0, 1]`
compares `True == 1` numerically — refuting the claim that every
non-0/1 inclusion value raises `ValidationError`. -/
theorem fields_inclusion_bool_counterexample :
    validate_filter_input defaultValidator
      { fields := some (.dict [("a", .bool true)]) } = .ok () ∧
    PyValue.bool true ≠ PyValue.int 0 ∧
    PyValue.bool true ≠ PyValue.int 1 := by
  refine ⟨?_, by simp, by simp⟩
  simp [validate_filter_input, clauseResults, defaultValidator, collectClause,
    validate_fields_clause, validate_fields_entries, validate_field_access,
    truthyStrList, pyEqInt] <;> decide

/-- When the fields-entry loop succeeds, every inclusion value in the
clause was Python-equal to 0 or 1. -/
theorem validate_fields_entries_ok_mem (p : SecurityPolicy) :
    ∀ entries, validate_fields_entries p entries = .ok () →
      ∀ pr ∈ entries, pyEqInt pr.2 0 = true ∨ pyEqInt pr.2 1 = true := by
  intro entries
  induction entries with
  | nil => intro _ pr hpr; cases hpr
  | cons e tl ih =>
    intro hok pr hpr
    rw [validate_fields_entries] at hok
    rcases he : validate_field_access p e.1 with err | u
    · rw [he] at hok
      exact Except.noConfusion hok
    · rw [he] at hok
      have hok2 : (if (pyEqInt e.2 0 || pyEqInt e.2 1) = true
          then validate_fields_entries p tl
          else Except.error (.validation
            ("Field inclusion value must be 0 or 1, got " ++ pyStr e.2))) =
          Except.ok () := hok
      rcases hc : (pyEqInt e.2 0 || pyEqInt e.2 1) with _ | _
      · rw [hc] at hok2
        simp at hok2
      · rw [hc] at hok2
        simp only [if_true] at hok2
        rcases List.mem_cons.mp hpr with h | h
        · subst h
          exact Bool.or_eq_true_iff.mp hc
        · exact ih hok2 pr h

/-- C6 amended: a fields-clause entry raises `ValidationError` exactly
when its inclusion value is not Python-equal to 0 or 1 (so the booleans
`True`/`False` pass, comparing as `1`/`0`); fields validation succeeds
only when every inclusion value is Python-equal to 0 or 1. -/
theorem fields_inclusion_values_python_eq_0_or_1
    (p : SecurityPolicy) (f : String) (incl : PyValue)
    (rest entries : List (String × PyValue))
    (hacc : validate_field_access p f = .ok ())
    (hni : pyEqInt incl 0 = false) (hni1 : pyEqInt incl 1 = false) :
    validate_fields_entries p ((f, incl) :: rest) =
      .error (.validation ("Field inclusion value must be 0 or 1, got " ++ pyStr incl)) ∧
    (validate_fields_entries p entries = .ok () →
      ∀ pr ∈ entries, pyEqInt pr.2 0 = true ∨ pyEqInt pr.2 1 = true) := by
  refine ⟨?_, validate_fields_entries_ok_mem p entries⟩
  rw [validate_fields_entries, hacc]
  simp [hni, hni1]
  rfl

/-- Witness for `fields_inclusion_values_python_eq_0_or_1`: the string
inclusion value `"x"` (Python-equal to neither 0 nor 1) raises. -/
theorem fields_inclusion_values_python_eq_0_or_1_witness :
    validate_fields_entries {} [("a", .str "x")] =
      .error (.validation "Field inclusion value must be 0 or 1, got x") := by
  have h := (fields_inclusion_values_python_eq_0_or_1 {} "a" (.str "x") [] []
    rfl rfl rfl).1
  rw [h]
  decide

/-- A chain of nested single-child `LogicalCondition` wrappers around a
core node, one wrapper per listed operator. -/
def nestChain : List LogicalOperator → ASTNode → ASTNode
  | [], c => c
  | op :: ops, c => .logical op [nestChain ops c]

/-- One rewrite step unwraps exactly the outermost single-child wrapper. -/
theorem optimizeNode_single_child (cfg : OptimizerConfig)
    (op : LogicalOperator) (c : ASTNode) :
    optimizeNode cfg (.logical op [c]) = some c := by
  rw [optimizeNode]

/-- A bare `FieldCondition` is a fixed point of the pass loop. -/
theorem optimizeWherePasses_field (cfg : OptimizerConfig)
    (f : String) (cop : ComparisonOperator) (val : PyValue) :
    ∀ n, optimizeWherePasses cfg n (some (.field f cop val)) =
      some (.field f cop val) := by
  intro n
  induction n with
  | zero => rfl
  | succ m ih =>
    rw [optimizeWherePasses]
    have hstep : optimizeNode cfg (.field f cop val) = some (.field f cop val) := by
      rw [optimizeNode]
    show optimizeWherePasses cfg m (optimizeNode cfg (.field f cop val)) =
      some (.field f cop val)
    rw [hstep]
    exact ih

/-- Enough passes collapse a whole single-child chain to its core leaf. -/
theorem optimizeWherePasses_nestChain (cfg : OptimizerConfig)
    (f : String) (cop : ComparisonOperator) (val : PyValue) :
    ∀ (ops : List LogicalOperator) (n : Nat), ops.length ≤ n →
      optimizeWherePasses cfg n (some (nestChain ops (.field f cop val))) =
        some (.field f cop val) := by
  intro ops
  induction ops with
  | nil => intro n _; exact optimizeWherePasses_field cfg f cop val n
  | cons op ops ih =>
    intro n hn
    match n with
    | 0 => exact absurd hn (by simp)
    | m + 1 =>
      rw [optimizeWherePasses]
      show optimizeWherePasses cfg m
          (optimizeNode cfg (.logical op [nestChain ops (.field f cop val)])) =
        some (.field f cop val)
      rw [optimizeNode_single_child]
      exact ih m (Nat.le_of_succ_le_succ hn)

/-- C7: for all `n ≥ 1`, optimizing a `FilterAST` whose where clause is
`n` nested single-child `LogicalCondition` wrappers around a single
`FieldCondition` yields exactly that `FieldCondition`, provided the
optimizer is enabled and `max_optimization_passes` is at least the
necessary depth. -/
theorem nested_single_child_wrappers_collapse
    (cfg : OptimizerConfig) (ops : List LogicalOperator)
    (f : String) (cop : ComparisonOperator) (val : PyValue)
    (hen : cfg.enabled = true) (hne : ops ≠ [])
    (hpasses : ops.length ≤ cfg.max_optimization_passes) :
    ASTOptimizer.optimize cfg
      { whereSec := some (nestChain ops (.field f cop val)) } =
      { whereSec := some (.field f cop val), order := [], fields := Option.none } := by
  unfold ASTOptimizer.optimize
  rw [hen, if_pos rfl]
  simp only [dedupOrder]
  rw [optimizeWherePasses_nestChain cfg f cop val ops
    cfg.max_optimization_passes hpasses]

/-- Witness for `nested_single_child_wrappers_collapse`, mirroring the
multi-pass test: three nested single-child `$and` wrappers around
`FieldCondition(price, $gt, 10)` with `max_optimization_passes = 3`. -/
theorem nested_single_child_wrappers_collapse_witness :
    ASTOptimizer.optimize { max_optimization_passes := 3 }
      { whereSec := some (nestChain [.AND, .AND, .AND]
          (.field "price" .GT (.int 10))) } =
      { whereSec := some (.field "price" .GT (.int 10)), order := [],
        fields := Option.none } :=
  nested_single_child_wrappers_collapse
    { max_optimization_passes := 3 } [.AND, .AND, .AND] "price" .GT (.int 10)
    rfl (by decide) (by decide)

/-- C9: `BeanieQueryAdapter.build()` returns a mapping containing only the
components actually populated — the `"filter"` key is present exactly when
a where condition was added, `"sort"` exactly when a sort was added, and
`"projection"` exactly when the projection is neither `None` nor empty —
and compiling a `FilterAST` with no where, order or fields yields the
empty mapping. -/
theorem beanie_build_only_populated_components
    (q : List (String × PyValue)) (s : List (String × Int))
    (proj : Option (List (String × Int))) :
    ((List.lookup "filter"
        (BeanieQueryAdapter.build ⟨q, s, proj⟩)).isSome = true ↔ q ≠ []) ∧
    ((List.lookup "sort"
        (BeanieQueryAdapter.build ⟨q, s, proj⟩)).isSome = true ↔ s ≠ []) ∧
    ((List.lookup "projection"
        (BeanieQueryAdapter.build ⟨q, s, proj⟩)).isSome = true ↔
      ∃ pl, proj = some pl ∧ pl ≠ []) ∧
    (∀ compileCond, beanieCompile compileCond {} = []) := by
  refine ⟨?_, ?_, ?_, fun _ => rfl⟩ <;>
  · obtain _ | ⟨qh, qt⟩ := q <;> obtain _ | ⟨sh, st⟩ := s <;>
      obtain _ | (_ | ⟨ph, pt⟩) := proj <;>
      simp [BeanieQueryAdapter.build, List.lookup]

/-- Looking up a key right after inserting it yields the inserted value. -/
theorem lookup_alistInsert {α : Type} (k : String) (v : α) :
    ∀ l : List (String × α), List.lookup k (alistInsert k v l) = some v := by
  intro l
  induction l with
  | nil => simp [alistInsert, List.lookup]
  | cons e rest ih =>
    rw [alistInsert]
    by_cases he : e.1 = k
    · simp [he, List.lookup]
    · have hbe : (k == e.1) = false := beq_eq_false_iff_ne.mpr (Ne.symm he)
      simp only [he, if_false]
      simp [List.lookup, ih, hbe]

/-- Looking up a key right after erasing it yields nothing. -/
theorem lookup_alistErase {α : Type} (k : String) :
    ∀ l : List (String × α), List.lookup k (alistErase k l) = Option.none := by
  intro l
  induction l with
  | nil => rfl
  | cons e rest ih =>
    rw [alistErase]
    by_cases he : e.1 = k
    · simp [he, ih]
    · have hbe : (k == e.1) = false := beq_eq_false_iff_ne.mpr (Ne.symm he)
      simp only [he, if_false]
      simp [List.lookup, ih, hbe]

/-- C10: the `CompilerRegistry` caching invariant — after a first
successful `get_compiler(backend)`, every subsequent call returns the
same instance and leaves the registry unchanged; calling
`register_compiler(backend, ...)` again discards the cached instance so
the next `get_compiler` instantiates the newly registered class; and
`get_compiler` for a never-registered backend raises `RegistryError`
(returning no modified registry state). -/
theorem compiler_registry_caching_invariant (r : CompilerRegistry) (b : String) :
    (∀ i r2, r.get_compiler b = .ok (i, r2) → r2.get_compiler b = .ok (i, r2)) ∧
    (∀ i r2 cls2, r.get_compiler b = .ok (i, r2) →
      List.lookup b (r2.register_compiler b cls2).instances = Option.none ∧
      ∃ n r3, (r2.register_compiler b cls2).get_compiler b = .ok ((cls2, n), r3)) ∧
    (List.lookup b r.compilers = Option.none →
      r.get_compiler b =
        .error ("No compiler registered for backend \x27" ++ b ++ "\x27")) := by
  refine ⟨?_, ?_, ?_⟩
  · intro i r2 hok
    unfold CompilerRegistry.get_compiler at hok ⊢
    cases hc : List.lookup b r.compilers with
    | none => rw [hc] at hok; exact Except.noConfusion hok
    | some cls =>
      rw [hc] at hok
      cases hi : List.lookup b r.instances with
      | some inst =>
        rw [hi] at hok
        injection hok with h
        injection h with h3 h4
        subst h3
        subst h4
        rw [hc, hi]
      | none =>
        rw [hi] at hok
        injection hok with h
        injection h with h3 h4
        subst h3
        subst h4
        dsimp only
        rw [hc, lookup_alistInsert]
  · intro i r2 cls2 _
    constructor
    · simp [CompilerRegistry.register_compiler, lookup_alistErase]
    · unfold CompilerRegistry.get_compiler
      simp only [CompilerRegistry.register_compiler]
      rw [lookup_alistInsert, lookup_alistErase]
      exact ⟨_, _, rfl⟩
  · intro h
    unfold CompilerRegistry.get_compiler
    rw [h]

/-- Witness for `compiler_registry_caching_invariant`: after registering
class token 7 for backend `beanie` and fetching once, fetching again
returns the identical cached instance `(7, 0)` with the registry
unchanged. -/
theorem compiler_registry_caching_invariant_witness :
    CompilerRegistry.get_compiler
      { compilers := [("beanie", 7)], instances := [("beanie", (7, 0))],
        counter := 1 } "beanie" =
    .ok ((7, 0),
      { compilers := [("beanie", 7)], instances := [("beanie", (7, 0))],
        counter := 1 }) :=
  (compiler_registry_caching_invariant
    (CompilerRegistry.register_compiler {} "beanie" 7) "beanie").1
    (7, 0) _ rfl
